import Mathlib

/-!
Shallow embedding of `src/dv/scripts/generate.py` (RapidCircle/sample-datasets).

Modelling conventions:

* A pandas row (`pd.Series`) is an association list from column name to a
  scalar `Value` (string, rational number, or null).  `None`/`NaN` are both
  `Value.null`.  Python floats are modelled as exact rationals; the claims
  under verification never depend on binary floating-point representation.
* Calendar dates are modelled by their proleptic ordinal (`Nat`), exactly the
  value `datetime.date.toordinal` returns; `timedelta(days = d)` is `+ d` and
  date comparison is `Nat` comparison.  ISO-8601 date strings compare
  lexicographically in the same order as the dates they denote, so the
  `cdc_ts` column (an ISO string in the CSV) is carried as the ordinal.
* All randomness (`random.*`, `Faker`) is an oracle passed explicitly: each
  generated record receives a record of the draws the Python code would pull
  from the seeded global generator.  `random.random()` draws are rationals,
  `random.randint`/`random.choices` draws are the drawn numbers/characters,
  and `fake.*` string/date fabrications are the fabricated values.  Library
  guarantees about draw ranges (e.g. `fake.date_between(start, end)` lies in
  `[start, end]`, `randint(1, 365)` lies in `[1, 365]`) appear as hypotheses
  where a theorem needs them.
* `str(date)` and `pd.to_datetime(...).date()` are Python/pandas library
  functions, not repository code; they are threaded as explicit parameters
  `render : Nat → String` and `parse : Value → Option Nat` (with
  `parse v = none` standing for the library raising an exception).
* Fallible Python code (a `float(...)`/string-concatenation `TypeError`, a
  missing-column `KeyError`) is modelled with `Option`, `none` standing for
  an uncaught exception.
-/

/-- A scalar cell value of a generated table: a string, a number, or
`None`/`NaN`. -/
inductive Value where
  | null : Value
  | str (s : String) : Value
  | num (q : ℚ) : Value
  deriving Repr, DecidableEq

/-- One row of a table: an association list from column name to value,
modelling a `pd.Series` (or a dict) with its column order. -/
abbrev Row := List (String × Value)

/-- Column lookup, `row[col]`; `none` models a `KeyError` on a missing
label (the generated frames always carry their full schema). -/
def getCol : Row → String → Option Value
  | [], _ => none
  | p :: rest, c => if p.1 = c then some p.2 else getCol rest c

/-- Replace the value stored under an existing label (every occurrence, as
pandas label-based assignment does). -/
def setColAux : Row → String → Value → Row
  | [], _, _ => []
  | p :: rest, c, v => (if p.1 = c then (c, v) else p) :: setColAux rest c v

/-- `row[col] = v` on a `pd.Series`: overwrite the value under an existing
label, or append a new label at the end when the label is absent. -/
def setCol (r : Row) (c : String) (v : Value) : Row :=
  if r.any (fun p => p.1 == c) then setColAux r c v else r ++ [(c, v)]

/-- Python's `round(q, 2)`.  Tie-breaking and binary-float representation are
abstracted: the claims never depend on the exact rounded value. -/
def round2 (q : ℚ) : ℚ := mkRat (round (q * 100)) 100

/-- Python's `float(value)`: defined on numbers; on null it raises
(`none`).  (The generator only ever applies it to the numeric `price`
column, so string parsing of numerals is not modelled and also maps to
`none`.) -/
def pyFloat : Value → Option ℚ
  | Value.num q => some q
  | _ => none

/-- Python's `value + " v2"` string concatenation: defined on strings, a
`TypeError` (`none`) otherwise. -/
def pyStrAppend (v : Value) (suffix : String) : Option Value :=
  match v with
  | Value.str s => some (Value.str (s ++ suffix))
  | _ => none

/-- The random draws consumed by one call of `_mutate_row_for_table`:
the `random.random()` gates of the branch structure, the fabricated
replacement strings, and the price factor drawn from
`[0.9, 0.95, 1.05, 1.1]`. -/
structure MutChoice where
  r1 : ℚ
  r2 : ℚ
  newCountry : String
  newName : String
  newCity : String
  newState : String
  newPostal : String
  factor : ℚ
  deriving Repr, DecidableEq

/-- `_mutate_row_for_table(row, table_name)` (generate.py lines 80-108):
apply one small per-table change to a fresh copy of the row.  `none` models
the uncaught exception raised when the touched column is missing or
ill-typed. -/
def _mutate_row_for_table (row : Row) (table_name : String) (c : MutChoice) :
    Option Row :=
  if table_name = "erp_customers" then
    if c.r1 < mkRat 1 2 then
      some (setCol row "country" (Value.str c.newCountry))
    else
      some (setCol row "customer_name" (Value.str c.newName))
  else if table_name = "erp_customer_addresses" then
    if c.r1 < mkRat 33 100 then
      some (setCol row "city" (Value.str c.newCity))
    else if c.r2 < mkRat 66 100 then
      some (setCol row "state" (Value.str c.newState))
    else
      some (setCol row "postal_code" (Value.str c.newPostal))
  else if table_name = "erp_products" then
    if c.r1 < mkRat 6 10 then
      match getCol row "price" with
      | some v =>
          (pyFloat v).map fun old_price =>
            setCol row "price" (Value.num (round2 (old_price * c.factor)))
      | none => none
    else
      match getCol row "product_name" with
      | some v =>
          (pyStrAppend v " v2").map fun v2 => setCol row "product_name" v2
      | none => none
  else
    some row

/-- The columns `_mutate_row_for_table` may assign for a given table name. -/
def mutatedCols (t : String) : List String :=
  if t = "erp_customers" then ["country", "customer_name"]
  else if t = "erp_customer_addresses" then ["city", "state", "postal_code"]
  else if t = "erp_products" then ["price", "product_name"]
  else []

/-- The random draws consumed for one source row inside `generate_erp_cdc`:
the fallback `fake.date_between(start, end)` date, the update gate and its
`randint(1, 365)` day shift, the mutation draws, and the delete gate with
its day shift. -/
structure RowChoices where
  fallbackDate : Nat
  rUpd : ℚ
  updDelta : Nat
  mutCh : MutChoice
  rDel : ℚ
  delDelta : Nat
  deriving Repr, DecidableEq

/-- One CDC event: the metadata columns prepended by `generate_erp_cdc`
plus the full copy of the row state at that operation (`dict.update` with
the row's columns; the generated snapshots never carry a `cdc_*` column, so
the merge never overwrites the metadata). -/
structure Event where
  cdc_table : String
  cdc_op : String
  cdc_ts : Nat
  cdc_seq : Nat
  row : Row
  deriving Repr, DecidableEq

/-- The clamp-to-`end` step `if ts > end: ts = end` (generate.py lines
168-169 and 189-190), written as a function for reuse in statements. -/
def clampD (x e : Nat) : Nat := if x > e then e else x

/-- The base INSERT timestamp (generate.py lines 140-148): `created_at`
when present, non-null and parseable, else the fallback random in-range
date.  A parse failure (`parse v = none`, the `except` branch) falls back
silently. -/
def baseTs (parse : Value → Option Nat) (row : Row) (c : RowChoices) : Nat :=
  match getCol row "created_at" with
  | some v =>
      if v = Value.null then c.fallbackDate
      else
        match parse v with
        | some d => d
        | none => c.fallbackDate
  | none => c.fallbackDate

/-- The events emitted for one working row (generate.py lines 137-199): one
Insert, then with gate `rUpd < p_update` one Update of a mutated copy, then
with gate `rDel < p_delete` one Delete of the latest state; `cdc_seq`
counts 1, 2, ...; each later timestamp moves forward by the drawn delta and
is clamped to `end`. -/
def rowEvents (parse : Value → Option Nat) (table_name : String) (endD : Nat)
    (p_update p_delete : ℚ) (row : Row) (c : RowChoices) :
    Option (List Event) :=
  let base_ts := baseTs parse row c
  let insert_event : Event := ⟨table_name, "I", base_ts, 1, row⟩
  if c.rUpd < p_update then
    match _mutate_row_for_table row table_name c.mutCh with
    | none => none
    | some updated_row =>
        let upd_ts0 := base_ts + c.updDelta
        let upd_ts := if upd_ts0 > endD then endD else upd_ts0
        let update_event : Event := ⟨table_name, "U", upd_ts, 2, updated_row⟩
        if c.rDel < p_delete then
          let del_ts0 := upd_ts + c.delDelta
          let del_ts := if del_ts0 > endD then endD else del_ts0
          some [insert_event, update_event,
                ⟨table_name, "D", del_ts, 3, updated_row⟩]
        else
          some [insert_event, update_event]
  else
    if c.rDel < p_delete then
      let del_ts0 := base_ts + c.delDelta
      let del_ts := if del_ts0 > endD then endD else del_ts0
      some [insert_event, ⟨table_name, "D", del_ts, 2, row⟩]
    else
      some [insert_event]

/-- `pd.notna(row[key_col])` for the filtering step: the key column holds a
non-null value.  (A frame missing the key column entirely would raise in
Python before any row is processed; such rows are modelled as filtered.) -/
def keyNotNull (r : Row) (k : String) : Bool :=
  match getCol r k with
  | some v => v != Value.null
  | none => false

/-- The per-row event lists of a working table, row `i` consuming the draw
record `cs i`; `none` as soon as one row raises. -/
def rowsEvents (parse : Value → Option Nat) (table_name : String) (endD : Nat)
    (p_update p_delete : ℚ) :
    List Row → (Nat → RowChoices) → Option (List (List Event))
  | [], _ => some []
  | r :: rest, cs => do
      let l ← rowEvents parse table_name endD p_update p_delete r (cs 0)
      let ls ← rowsEvents parse table_name endD p_update p_delete rest
        (fun i => cs (i + 1))
      pure (l :: ls)

/-- Sort key of a `Value` inside the final `sort_values` call, lexicographic
rank-then-payload.  Rows of one generated table hold keys of one scalar
type, so only same-constructor comparisons arise; ranks order the
constructors arbitrarily (mixed-type comparison would raise in pandas). -/
def valKey : Value → ℕ ×ₗ ℚ ×ₗ List Char
  | Value.null => toLex (0, toLex (0, []))
  | Value.num q => toLex (1, toLex (q, []))
  | Value.str s => toLex (2, toLex (0, s.data))

/-- Sort key of the key column of an event; an absent label sorts last
(pandas puts missing values last). -/
def keyColKey (k : String) (e : Event) : ℕ ×ₗ ℚ ×ₗ List Char :=
  match getCol e.row k with
  | some v => valKey v
  | none => toLex (3, toLex (0, []))

/-- The composite `sort_values(by=[key_col, "cdc_ts", "cdc_seq"])` sort key
of an event. -/
def eventKey (k : String) (e : Event) : (ℕ ×ₗ ℚ ×ₗ List Char) ×ₗ ℕ ×ₗ ℕ :=
  toLex (keyColKey k e, toLex (e.cdc_ts, e.cdc_seq))

/-- The total order the final sort establishes: non-decreasing in
(key value, cdc_ts, cdc_seq). -/
def eventLE (k : String) (e1 e2 : Event) : Prop :=
  eventKey k e1 ≤ eventKey k e2

instance (k : String) : DecidableRel (eventLE k) :=
  fun e1 e2 => inferInstanceAs (Decidable (eventKey k e1 ≤ eventKey k e2))

instance (k : String) : IsTotal Event (eventLE k) :=
  ⟨fun e1 e2 => le_total (eventKey k e1) (eventKey k e2)⟩

instance (k : String) : IsTrans Event (eventLE k) :=
  ⟨fun _ _ _ h1 h2 => le_trans h1 h2⟩

/-- `generate_erp_cdc` (generate.py lines 111-212): filter out rows with a
null business key, emit each remaining row's Insert/Update/Delete events,
and return the flat event log sorted by (key, timestamp, sequence).  The
`startD` bound only feeds `fake.date_between`, whose draws the oracle
carries (theorems hypothesise `startD ≤ fallbackDate ≤ endD`).  Writing the
CSV is an I/O boundary outside the model. -/
def generate_erp_cdc (parse : Value → Option Nat) (base_df : List Row)
    (key_col : String) (table_name : String) (startD endD : Nat)
    (p_update p_delete : ℚ) (cs : Nat → RowChoices) : Option (List Event) :=
  let _ := startD
  let working_df := base_df.filter (fun r => keyNotNull r key_col)
  (rowsEvents parse table_name endD p_update p_delete working_df cs).map
    fun ls => List.insertionSort (eventLE key_col) ls.flatten

/-- `random_string(pre)` (generate.py lines 30-31): the given literal
followed by the drawn digit characters (`random.choices(string.digits, k=5)`,
carried by the oracle). -/
def random_string (pre : String) (digits : String) : String := pre ++ digits

/-- `inconsistent_id(base_id)` (generate.py lines 64-74): with probability
0.2 insert a dash after the `CUST` literal, with probability 0.1 lowercase
the whole id. -/
def inconsistent_id (base_id : String) (rDash rLower : ℚ) : String :=
  let b1 := if rDash < mkRat 1 5 then base_id.replace "CUST" "CUST-" else base_id
  if rLower < mkRat 1 10 then b1.toLower else b1

/-- `random.choice(l)`: uniform pick of one element.  The oracle supplies
the drawn index; the real generator always draws an in-range index, which
the `% l.length` makes explicit (the default is only reached on an empty
list, where Python raises). -/
def pyChoice {α : Type} (l : List α) (dflt : α) (i : Nat) : α :=
  l.getD (i % l.length) dflt

/-- The draws consumed for one customer row (generate.py lines 233-252). -/
structure CustChoice where
  idDigits : String
  rNullId : ℚ
  rDash : ℚ
  rLower : ℚ
  name : String
  country : String
  rNullCountry : ℚ
  createdAt : Nat
  deriving Repr, DecidableEq

/-- One customer snapshot row (generate.py lines 233-257): the id is kept
with probability 0.975 (passed through `inconsistent_id`) and null
otherwise; the country is nulled with probability 0.05
(`introduce_null(..., prob=0.05)`); `created_at` is stored as its
rendered ISO string. -/
def buildCustomerRow (render : Nat → String) (c : CustChoice) : Row :=
  let raw_id := random_string "CUST" c.idDigits
  let cust_id : Value :=
    if c.rNullId > mkRat 1 40 then
      Value.str (inconsistent_id raw_id c.rDash c.rLower)
    else Value.null
  [("customer_id", cust_id),
   ("customer_name", Value.str c.name),
   ("country", if c.rNullCountry > mkRat 1 20 then Value.str c.country
               else Value.null),
   ("created_at", Value.str (render c.createdAt))]

/-- The draws consumed for one address row (generate.py lines 263-269). -/
structure AddrChoice where
  custIdx : Nat
  address : String
  city : String
  postal : String
  state : String
  deriving Repr, DecidableEq

/-- One address snapshot row (generate.py lines 263-273): the customer id
is drawn from the non-null customer ids plus an explicit `None`. -/
def buildAddressRow (customer_ids : List Value) (c : AddrChoice) : Row :=
  let cust_id := pyChoice (customer_ids ++ [Value.null]) Value.null c.custIdx
  [("customer_id", cust_id),
   ("address", Value.str c.address),
   ("city", Value.str c.city),
   ("state", Value.str c.state),
   ("postal_code", Value.str c.postal)]

/-- The draws consumed for one product row (generate.py lines 279-292);
`name` is the chosen fabricated product name, `priceU` the
`random.uniform(10, 500)` draw. -/
structure ProdChoice where
  idDigits : String
  name : String
  priceU : ℚ
  catIdx : Nat
  deriving Repr, DecidableEq

/-- One product snapshot row (generate.py lines 279-297). -/
def buildProductRow (c : ProdChoice) : Row :=
  [("product_id", Value.str (random_string "PROD" c.idDigits)),
   ("product_name", Value.str c.name),
   ("category",
    Value.str (pyChoice
      ["Hardware", "Software", "Subscription", "Service", "Consumables"]
      "" c.catIdx)),
   ("price", Value.num (round2 c.priceU))]

/-- `column.dropna().tolist()`: the non-null values of one column in row
order. -/
def dropnaCol (rows : List Row) (k : String) : List Value :=
  (rows.filterMap (fun r => getCol r k)).filter (fun v => v != Value.null)

/-- The ordinal of `date(2020, 1, 1)`. -/
def d20200101 : Nat := 737425

/-- The ordinal of `date(2022, 12, 31)`. -/
def d20221231 : Nat := 738520

/-- The ordinal of `date(2024, 12, 31)`. -/
def d20241231 : Nat := 739251

/-- All random draws consumed by `generate_erp_data`, one stream per
record kind plus one `RowChoices` stream per CDC table. -/
structure ErpChoices where
  cust : Nat → CustChoice
  addr : Nat → AddrChoice
  prod : Nat → ProdChoice
  custCdc : Nat → RowChoices
  addrCdc : Nat → RowChoices
  prodCdc : Nat → RowChoices

/-- The in-memory outputs of `generate_erp_data` (generate.py lines
218-334): the three snapshot tables and the three CDC logs.  The function
returns five of them; the addresses snapshot is also produced (and
written), so it is carried here as well. -/
structure ErpData where
  customers : List Row
  addresses : List Row
  products : List Row
  customersCdc : Option (List Event)
  addressesCdc : Option (List Event)
  productsCdc : Option (List Event)
  deriving DecidableEq

/-- `generate_erp_data` (generate.py lines 218-334): build the three
snapshots, then run `generate_erp_cdc` on each with the 2020-01-01 /
2024-12-31 date range and the default `p_update = 0.4`,
`p_delete = 0.15`. -/
def generate_erp_data (render : Nat → String) (parse : Value → Option Nat)
    (num_customers num_addresses num_products : Nat) (o : ErpChoices) :
    ErpData :=
  let erp_customers :=
    (List.range num_customers).map fun i => buildCustomerRow render (o.cust i)
  let customer_ids := dropnaCol erp_customers "customer_id"
  let erp_addresses :=
    (List.range num_addresses).map fun j =>
      buildAddressRow customer_ids (o.addr j)
  let erp_products :=
    (List.range num_products).map fun i => buildProductRow (o.prod i)
  { customers := erp_customers
    addresses := erp_addresses
    products := erp_products
    customersCdc :=
      generate_erp_cdc parse erp_customers "customer_id" "erp_customers"
        d20200101 d20241231 (mkRat 4 10) (mkRat 15 100) o.custCdc
    addressesCdc :=
      generate_erp_cdc parse erp_addresses "customer_id"
        "erp_customer_addresses" d20200101 d20241231 (mkRat 4 10) (mkRat 15 100) o.addrCdc
    productsCdc :=
      generate_erp_cdc parse erp_products "product_id" "erp_products"
        d20200101 d20241231 (mkRat 4 10) (mkRat 15 100) o.prodCdc }

/-- The draws consumed for one SaaS user row (generate.py lines 355-361). -/
structure UserChoice where
  idDigits : String
  personName : String
  domainIdx : Nat
  emailNum : Nat
  deriving Repr, DecidableEq

/-- The apostrophe character, stripped from e-mail local parts. -/
def apos : Char := Char.ofNat 39

/-- One SaaS user row (generate.py lines 355-361): the e-mail local part is
the fabricated person name with spaces dotted, apostrophes stripped and the
whole lowercased, followed by a `randint(1, 999)` number and a drawn
domain. -/
def buildUserRow (c : UserChoice) : Row :=
  let person_name := c.personName
  let email_local :=
    ((person_name.replace " " ".").replace (String.singleton apos) "").toLower
  let domain := pyChoice ["example.com", "acme.io", "saasapp.com"] ""
    c.domainIdx
  [("user_id", Value.str (random_string "USER" c.idDigits)),
   ("name", Value.str person_name),
   ("email",
    Value.str (email_local ++ toString c.emailNum ++ "@" ++ domain))]

/-- One order object of `saas_orders.json` (generate.py lines 385-394). -/
structure SaasOrder where
  order_id : String
  customer_ref : Value
  order_date : String
  amount : Value
  currency : String
  status : String
  deriving Repr, DecidableEq

/-- The draws consumed for one SaaS order (generate.py lines 370-383):
`danglingDigits` feeds the freshly fabricated `random_string("CUST")`
candidate that `random.choice` may pick over a real customer id. -/
structure OrderChoice where
  idDigits : String
  danglingDigits : String
  refIdx : Nat
  orderDate : Nat
  amountU : ℚ
  rNullAmount : ℚ
  statusIdx : Nat
  currencyIdx : Nat
  deriving Repr, DecidableEq

/-- One SaaS order (generate.py lines 370-394): the customer reference is
drawn from the real non-null customer ids plus one fresh (dangling)
fabricated id; the amount is nulled with probability 0.035. -/
def buildOrder (render : Nat → String) (customer_ids : List Value)
    (c : OrderChoice) : SaasOrder :=
  { order_id := random_string "ORD" c.idDigits
    customer_ref :=
      pyChoice (customer_ids ++ [Value.str (random_string "CUST"
        c.danglingDigits)]) Value.null c.refIdx
    order_date := render c.orderDate
    amount := if c.rNullAmount > mkRat 35 1000 then Value.num (round2 c.amountU)
              else Value.null
    currency := pyChoice ["USD", "EUR", "INR", "CAD"] "" c.currencyIdx
    status := pyChoice ["Shipped", "shipped", "Pending", "pending",
      "Delivered"] "" c.statusIdx }

/-- The draws consumed for one order-item row (generate.py lines 403-408). -/
structure ItemChoice where
  orderIdx : Nat
  productIdx : Nat
  quantity : Nat
  discountIdx : Nat
  deriving Repr, DecidableEq

/-- One order-item row (generate.py lines 403-408): an order id and a
product id drawn from the generated collections, a `randint(1, 10)`
quantity and a drawn discount. -/
def buildItemRow (order_ids : List String) (product_ids : List Value)
    (c : ItemChoice) : Row :=
  [("order_id", Value.str (pyChoice order_ids "" c.orderIdx)),
   ("product_id", pyChoice product_ids Value.null c.productIdx),
   ("quantity", Value.num c.quantity),
   ("discount_pct",
    Value.num (pyChoice [0, 0, 0, 5, 10, 15] 0 c.discountIdx))]

/-- All random draws consumed by `generate_saas_data`. -/
structure SaasChoices where
  user : Nat → UserChoice
  order : Nat → OrderChoice
  item : Nat → ItemChoice

/-- The in-memory outputs of `generate_saas_data` (generate.py lines
340-416). -/
structure SaasData where
  users : List Row
  orders : List SaasOrder
  items : List Row
  deriving DecidableEq

/-- `generate_saas_data` (generate.py lines 340-416). -/
def generate_saas_data (render : Nat → String)
    (num_orders num_order_items num_users : Nat)
    (erp_customers_df erp_products_df : List Row) (o : SaasChoices) :
    SaasData :=
  let saas_users :=
    (List.range num_users).map fun i => buildUserRow (o.user i)
  let customer_ids := dropnaCol erp_customers_df "customer_id"
  let saas_orders :=
    (List.range num_orders).map fun i =>
      buildOrder render customer_ids (o.order i)
  let product_ids := (erp_products_df.filterMap fun r =>
    getCol r "product_id")
  let order_ids := saas_orders.map (fun o2 => o2.order_id)
  let order_items :=
    (List.range num_order_items).map fun i =>
      buildItemRow order_ids product_ids (o.item i)
  { users := saas_users, orders := saas_orders, items := order_items }

/-- The fixed `payment_methods` list (generate.py lines 429-435). -/
def payment_methods : List String :=
  ["Credit Card", "CreditCard", "Bank Transfer", "BankTransfer", "Cash"]

/-- The draws consumed for one payment row (generate.py lines 442-454):
`rGate` is the `random.random()` of the 6.5% forced-null gate, `refIdx`
the draw of the order reference from the order ids plus `None`. -/
structure PayChoice where
  idDigits : String
  rGate : ℚ
  refIdx : Nat
  payDate : Nat
  amountU : ℚ
  methodIdx : Nat
  deriving Repr, DecidableEq

/-- One payment row (generate.py lines 442-464): with
`random.random() > 0.065` the reference is drawn from the order ids plus
`None`; otherwise it is set to `None` outright. -/
def buildPaymentRow (render : Nat → String) (order_ids : List String)
    (c : PayChoice) : Row :=
  let order_ref : Value :=
    if c.rGate > mkRat 65 1000 then
      pyChoice ((order_ids.map Value.str) ++ [Value.null]) Value.null c.refIdx
    else Value.null
  [("payment_id", Value.str (random_string "PAY" c.idDigits)),
   ("order_ref", order_ref),
   ("payment_date", Value.str (render c.payDate)),
   ("payment_amount", Value.num (round2 c.amountU)),
   ("payment_method", Value.str (pyChoice payment_methods "" c.methodIdx))]

/-- `generate_payments_data` (generate.py lines 419-478): the payments
table (the constant `payment_methods` table is written alongside it). -/
def generate_payments_data (render : Nat → String) (num_payments : Nat)
    (saas_orders : List SaasOrder) (cs : Nat → PayChoice) : List Row :=
  let order_ids := saas_orders.map fun o => o.order_id
  (List.range num_payments).map fun i =>
    buildPaymentRow render order_ids (cs i)

/-- The record counts of one full run (generate.py lines 10-17). -/
structure RunParams where
  num_customers : Nat
  num_addresses : Nat
  num_products : Nat
  num_orders : Nat
  num_order_items : Nat
  num_users : Nat
  num_payments : Nat
  deriving Repr, DecidableEq

/-- Every random draw of one full run.  Seeding (`random.seed(42)`,
`np.random.seed(42)`, `Faker.seed(42)`, generate.py lines 23-27) makes the
whole stream a function of the seed alone; the oracle is that stream. -/
structure RunOracle where
  erp : ErpChoices
  saas : SaasChoices
  pay : Nat → PayChoice

/-- Everything one full run writes: the ERP snapshots and CDC logs, the
SaaS tables, the payment-method list and the payments table. -/
structure RunOutputs where
  erp : ErpData
  saas : SaasData
  methods : List String
  payments : List Row
  deriving DecidableEq

/-- The `__main__` pipeline (generate.py lines 481-510): ERP snapshots and
CDC, then SaaS data from the customer and product snapshots, then
payments from the SaaS orders. -/
def generate_run (render : Nat → String) (parse : Value → Option Nat)
    (p : RunParams) (o : RunOracle) : RunOutputs :=
  let erpData := generate_erp_data render parse p.num_customers
    p.num_addresses p.num_products o.erp
  let saasData := generate_saas_data render p.num_orders p.num_order_items
    p.num_users erpData.customers erpData.products o.saas
  let paymentsDf := generate_payments_data render p.num_payments
    saasData.orders o.pay
  { erp := erpData, saas := saasData, methods := payment_methods,
    payments := paymentsDf }

/-- A fixed mutation-draw record used by concrete evaluations: the first
gate fires the first branch of each table rule. -/
def mc0 : MutChoice :=
  { r1 := 0, r2 := 0, newCountry := "X", newName := "X", newCity := "X",
    newState := "X", newPostal := "X", factor := 1 }

/-- A per-row draw record whose gates suppress Update and Delete
(`random.random()` returned 1, never below the probabilities). -/
def rcNone : RowChoices :=
  { fallbackDate := 5, rUpd := 1, updDelta := 1, mutCh := mc0, rDel := 1,
    delDelta := 1 }

/-- A per-row draw record whose gates fire both Update and Delete
(`random.random()` returned 0). -/
def rcAll : RowChoices :=
  { fallbackDate := d20200101, rUpd := 0, updDelta := 1, mutCh := mc0,
    rDel := 0, delDelta := 1 }

/-- A one-column row with business key `"K"`. -/
def cxRowK : Row := [("customer_id", Value.str "K")]

/-- A one-column row with business key `"A"`. -/
def cxRowA : Row := [("customer_id", Value.str "A")]

/-- A one-column row with business key `"B"`. -/
def cxRowB : Row := [("customer_id", Value.str "B")]

/-- A customer row with a `created_at` value no parser accepts. -/
def cxRowBad : Row :=
  [("customer_id", Value.str "A"), ("created_at", Value.str "not a date")]

/-- Customer draws for a concrete ten-customer run: distinct ids
`CUST0`, ..., `CUST9`, no nulls, no id noise. -/
def cust10 : Nat → CustChoice := fun i =>
  { idDigits := toString i, rNullId := 1, rDash := 1, rLower := 1,
    name := "N", country := "C", rNullCountry := 1,
    createdAt := d20200101 }

/-- Address draws for concrete runs. -/
def addr0 : Nat → AddrChoice := fun _ =>
  { custIdx := 0, address := "A", city := "B", postal := "C", state := "D" }

/-- Product draws for concrete runs. -/
def prod0 : Nat → ProdChoice := fun _ =>
  { idDigits := "0", name := "P", priceU := 10, catIdx := 0 }

/-- An ERP oracle on which every Update and Delete gate fires. -/
def erpAllFire : ErpChoices :=
  { cust := cust10, addr := addr0, prod := prod0, custCdc := fun _ => rcAll,
    addrCdc := fun _ => rcAll, prodCdc := fun _ => rcAll }

/-- A date renderer for concrete evaluations. -/
def erpRender : Nat → String := fun _ => "d"

/-- A date parser for concrete evaluations: everything reads as
2020-01-01. -/
def erpParse : Value → Option Nat := fun _ => some d20200101

/-- User draws for concrete runs. -/
def user0 : Nat → UserChoice := fun _ =>
  { idDigits := "0", personName := "Jo An", domainIdx := 0, emailNum := 1 }

/-- Order draws for concrete runs. -/
def order0 : Nat → OrderChoice := fun i =>
  { idDigits := toString i, danglingDigits := "99999", refIdx := 0,
    orderDate := d20200101, amountU := 100, rNullAmount := 1,
    statusIdx := 0, currencyIdx := 0 }

/-- Item draws for concrete runs. -/
def item0 : Nat → ItemChoice := fun _ =>
  { orderIdx := 0, productIdx := 0, quantity := 1, discountIdx := 0 }

/-- Payment draws: the 6.5% forced-null gate fires on every row
(`random.random()` returned 0 ≤ 0.065). -/
def payForcedNull : Nat → PayChoice := fun _ =>
  { idDigits := "0", rGate := 0, refIdx := 0, payDate := d20200101,
    amountU := 50, methodIdx := 0 }

/-- A SaaS oracle for concrete runs. -/
def saas0 : SaasChoices := { user := user0, order := order0, item := item0 }

/-- A full-run oracle for concrete runs. -/
def runOracle0 : RunOracle :=
  { erp := erpAllFire, saas := saas0, pay := payForcedNull }

/-- Small run parameters for concrete runs. -/
def runParams0 : RunParams :=
  { num_customers := 1, num_addresses := 1, num_products := 1,
    num_orders := 1, num_order_items := 1, num_users := 1,
    num_payments := 1 }

/-- Whether a payment row's order reference is either empty or one of the
given order ids. -/
def orderRefOk (order_ids : List String) (r : Row) : Bool :=
  match getCol r "order_ref" with
  | some Value.null => true
  | some (Value.str s) => order_ids.contains s
  | _ => false

/-- Whether a payment row carries a dangling reference: a non-empty
`order_ref` absent from the order-id set. -/
def danglingRef (order_ids : List String) (r : Row) : Bool :=
  match getCol r "order_ref" with
  | some (Value.str s) => !(order_ids.contains s)
  | _ => false

/-- The key-`"A"` row after the customers mutation rule set its country. -/
def cxRowAX : Row :=
  [("customer_id", Value.str "A"), ("country", Value.str "X")]

/-- The key-`"B"` row after the customers mutation rule set its country. -/
def cxRowBX : Row :=
  [("customer_id", Value.str "B"), ("country", Value.str "X")]

/-- The event log of one no-update no-delete row. -/
def wLog1 : List Event := [⟨"erp_customers", "I", 5, 1, cxRowA⟩]

/-- The event log of two no-update no-delete rows with distinct keys. -/
def wLogAB2 : List Event :=
  [⟨"erp_customers", "I", 5, 1, cxRowA⟩,
   ⟨"erp_customers", "I", 5, 1, cxRowB⟩]

/-- The full Insert/Update/Delete event log of the key-`"A"` row. -/
def wLogA3 : List Event :=
  [⟨"erp_customers", "I", 737425, 1, cxRowA⟩,
   ⟨"erp_customers", "U", 737426, 2, cxRowAX⟩,
   ⟨"erp_customers", "D", 737427, 3, cxRowAX⟩]

/-- The full Insert/Update/Delete event logs of the key-`"A"` and
key-`"B"` rows, concatenated in sorted order. -/
def wLogAB6 : List Event :=
  [⟨"erp_customers", "I", 737425, 1, cxRowA⟩,
   ⟨"erp_customers", "U", 737426, 2, cxRowAX⟩,
   ⟨"erp_customers", "D", 737427, 3, cxRowAX⟩,
   ⟨"erp_customers", "I", 737425, 1, cxRowB⟩,
   ⟨"erp_customers", "U", 737426, 2, cxRowBX⟩,
   ⟨"erp_customers", "D", 737427, 3, cxRowBX⟩]

/-- A concrete SaaS order for payment evaluations. -/
def cxOrder : SaasOrder :=
  { order_id := "ORD1", customer_ref := Value.null, order_date := "d",
    amount := Value.null, currency := "USD", status := "Shipped" }

/-- The number of events of one operation kind carried by one business-key
value in an event log. -/
def countOpKey (k : String) (v : Value) (op : String) (l : List Event) :
    Nat :=
  l.countP fun e => decide (e.cdc_op = op ∧ getCol e.row k = some v)

theorem getCol_setColAux_ne (r : Row) (c c' : String) (v : Value)
    (h : c' ≠ c) : getCol (setColAux r c v) c' = getCol r c' := by
  induction r with
  | nil => rfl
  | cons p rest ih =>
      by_cases hp : p.1 = c
      · simp [setColAux, getCol, hp, Ne.symm h, ih]
      · simp [setColAux, getCol, hp, ih]

theorem getCol_append_single_ne (r : Row) (c c' : String) (v : Value)
    (h : c' ≠ c) : getCol (r ++ [(c, v)]) c' = getCol r c' := by
  induction r with
  | nil => simp [getCol, Ne.symm h]
  | cons p rest ih =>
      by_cases hp : p.1 = c' <;> simp [getCol, hp, ih]

theorem getCol_setCol_ne (r : Row) (c c' : String) (v : Value)
    (h : c' ≠ c) : getCol (setCol r c v) c' = getCol r c' := by
  unfold setCol
  split
  · exact getCol_setColAux_ne r c c' v h
  · exact getCol_append_single_ne r c c' v h

theorem getCol_setColAux_self (r : Row) (c : String) (v : Value)
    (h : r.any (fun p => p.1 == c) = true) :
    getCol (setColAux r c v) c = some v := by
  induction r with
  | nil => simp at h
  | cons p rest ih =>
      by_cases hp : p.1 = c
      · simp [setColAux, hp, getCol]
      · have hrest : rest.any (fun p => p.1 == c) = true := by
          simp only [List.any_cons, beq_iff_eq, Bool.or_eq_true,
            decide_eq_true_eq] at h
          rcases h with h | h
          · exact absurd h hp
          · exact h
        simp [setColAux, hp, getCol, ih hrest]

theorem getCol_append_single_self (r : Row) (c : String) (v : Value)
    (h : ∀ p ∈ r, p.1 ≠ c) :
    getCol (r ++ [(c, v)]) c = some v := by
  induction r with
  | nil => simp [getCol]
  | cons p rest ih =>
      have hp : p.1 ≠ c := h p (List.mem_cons_self p rest)
      simp only [List.cons_append, getCol, hp, if_false]
      exact ih fun q hq => h q (List.mem_cons_of_mem p hq)

theorem getCol_setCol_self (r : Row) (c : String) (v : Value) :
    getCol (setCol r c v) c = some v := by
  unfold setCol
  split
  case isTrue hany => exact getCol_setColAux_self r c v hany
  case isFalse hany =>
    refine getCol_append_single_self r c v fun p hp hpc => ?_
    exact hany (List.any_eq_true.mpr ⟨p, hp, by simp [hpc]⟩)

theorem keyNotNull_getCol {r : Row} {k : String} (h : keyNotNull r k = true) :
    ∃ v, getCol r k = some v ∧ v ≠ Value.null := by
  unfold keyNotNull at h
  cases hg : getCol r k with
  | none => rw [hg] at h; simp at h
  | some v =>
      rw [hg] at h
      exact ⟨v, rfl, by simpa using h⟩

theorem keyNotNull_setCol {r : Row} {k c : String} {v : Value}
    (h : keyNotNull r k = true) (hv : v ≠ Value.null) :
    keyNotNull (setCol r c v) k = true := by
  by_cases hc : k = c
  · subst hc
    unfold keyNotNull
    rw [getCol_setCol_self]
    simpa using hv
  · unfold keyNotNull at h ⊢
    rw [getCol_setCol_ne r c k v hc]
    exact h

theorem mutate_frame {row row2 : Row} {tbl : String} {c : MutChoice}
    (h : _mutate_row_for_table row tbl c = some row2) :
    ∀ col, col ∉ mutatedCols tbl → getCol row2 col = getCol row col := by
  intro col hcol
  unfold _mutate_row_for_table at h
  unfold mutatedCols at hcol
  by_cases h1 : tbl = "erp_customers"
  · simp only [h1, if_true] at h hcol
    simp only [List.mem_cons, List.not_mem_nil, or_false,
      List.mem_singleton] at hcol
    push_neg at hcol
    split_ifs at h
    · simp only [Option.some.injEq] at h
      subst h
      exact getCol_setCol_ne _ _ _ _ hcol.1
    · simp only [Option.some.injEq] at h
      subst h
      exact getCol_setCol_ne _ _ _ _ hcol.2
  · simp only [h1, if_false] at h hcol
    by_cases h2 : tbl = "erp_customer_addresses"
    · simp only [h2, if_true] at h hcol
      simp only [List.mem_cons, List.not_mem_nil, or_false,
        List.mem_singleton] at hcol
      push_neg at hcol
      split_ifs at h <;>
        · simp only [Option.some.injEq] at h
          subst h
          first
            | exact getCol_setCol_ne _ _ _ _ hcol.1
            | exact getCol_setCol_ne _ _ _ _ hcol.2.1
            | exact getCol_setCol_ne _ _ _ _ hcol.2.2
    · simp only [h2, if_false] at h hcol
      by_cases h3 : tbl = "erp_products"
      · simp only [h3, if_true] at h hcol
        simp only [List.mem_cons, List.not_mem_nil, or_false,
          List.mem_singleton] at hcol
        push_neg at hcol
        split_ifs at h
        · cases hgp : getCol row "price" with
          | none => rw [hgp] at h; cases h
          | some v =>
              rw [hgp] at h
              rcases Option.map_eq_some'.mp h with ⟨q, _, hq2⟩
              subst hq2
              exact getCol_setCol_ne _ _ _ _ hcol.1
        · cases hgp : getCol row "product_name" with
          | none => rw [hgp] at h; cases h
          | some v =>
              rw [hgp] at h
              rcases Option.map_eq_some'.mp h with ⟨v2, _, hv2⟩
              subst hv2
              exact getCol_setCol_ne _ _ _ _ hcol.2
      · simp only [h3, if_false, Option.some.injEq] at h
        subst h
        rfl

theorem mutate_keyNotNull {row row2 : Row} {tbl k : String} {c : MutChoice}
    (hk : keyNotNull row k = true)
    (h : _mutate_row_for_table row tbl c = some row2) :
    keyNotNull row2 k = true := by
  unfold _mutate_row_for_table at h
  by_cases h1 : tbl = "erp_customers"
  · simp only [h1, if_true] at h
    split_ifs at h <;>
      · simp only [Option.some.injEq] at h
        subst h
        exact keyNotNull_setCol hk (by simp)
  · simp only [h1, if_false] at h
    by_cases h2 : tbl = "erp_customer_addresses"
    · simp only [h2, if_true] at h
      split_ifs at h <;>
        · simp only [Option.some.injEq] at h
          subst h
          exact keyNotNull_setCol hk (by simp)
    · simp only [h2, if_false] at h
      by_cases h3 : tbl = "erp_products"
      · simp only [h3, if_true] at h
        split_ifs at h
        · cases hgp : getCol row "price" with
          | none => rw [hgp] at h; cases h
          | some v =>
              rw [hgp] at h
              rcases Option.map_eq_some'.mp h with ⟨q, _, hq2⟩
              subst hq2
              exact keyNotNull_setCol hk (by simp)
        · cases hgp : getCol row "product_name" with
          | none => rw [hgp] at h; cases h
          | some v =>
              rw [hgp] at h
              rcases Option.map_eq_some'.mp h with ⟨v2, hv1, hv2⟩
              subst hv2
              cases v with
              | str s =>
                  simp only [pyStrAppend, Option.some.injEq] at hv1
                  subst hv1
                  exact keyNotNull_setCol hk (by simp)
              | null => simp [pyStrAppend] at hv1
              | num q => simp [pyStrAppend] at hv1
      · simp only [h3, if_false, Option.some.injEq] at h
        subst h
        exact hk

theorem clamp_le (x e : Nat) : (if x > e then e else x) ≤ e := by
  split <;> omega

theorem le_clamp (b d e : Nat) (hb : b ≤ e) :
    b ≤ if b + d > e then e else b + d := by
  split <;> omega

theorem clamp_ge_start (x e s : Nat) (hx : s ≤ x) (hse : s ≤ e) :
    s ≤ if x > e then e else x := by
  split <;> omega

theorem baseTs_cases (parse : Value → Option Nat) (row : Row)
    (c : RowChoices) :
    baseTs parse row c = c.fallbackDate ∨
      ∃ v d, getCol row "created_at" = some v ∧ parse v = some d ∧
        baseTs parse row c = d := by
  unfold baseTs
  split
  next v hv =>
    split
    · exact Or.inl rfl
    · split
      next d hd => exact Or.inr ⟨v, d, hv, hd, rfl⟩
      next hd => exact Or.inl rfl
  next hv => exact Or.inl rfl

theorem baseTs_le {parse : Value → Option Nat} {row : Row} {c : RowChoices}
    {endD : Nat} (hf : c.fallbackDate ≤ endD)
    (hp : ∀ v d, parse v = some d → d ≤ endD) :
    baseTs parse row c ≤ endD := by
  rcases baseTs_cases parse row c with h | ⟨v, d, _, hd, h⟩
  · rw [h]; exact hf
  · rw [h]; exact hp v d hd

theorem baseTs_ge {parse : Value → Option Nat} {row : Row} {c : RowChoices}
    {startD : Nat} (hf : startD ≤ c.fallbackDate)
    (hp : ∀ v d, parse v = some d → startD ≤ d) :
    startD ≤ baseTs parse row c := by
  rcases baseTs_cases parse row c with h | ⟨v, d, _, hd, h⟩
  · rw [h]; exact hf
  · rw [h]; exact hp v d hd

theorem clampD_le (x e : Nat) : clampD x e ≤ e := by
  unfold clampD
  split <;> omega

theorem le_clampD (b d e : Nat) (hb : b ≤ e) : b ≤ clampD (b + d) e := by
  unfold clampD
  split <;> omega

theorem clampD_ge (x e s : Nat) (hx : s ≤ x) (hse : s ≤ e) :
    s ≤ clampD x e := by
  unfold clampD
  split <;> omega

theorem rowEvents_shape {parse : Value → Option Nat} {tbl : String}
    {endD : Nat} {pu pdl : ℚ} {row : Row} {c : RowChoices} {l : List Event}
    (h : rowEvents parse tbl endD pu pdl row c = some l) :
    (¬ c.rUpd < pu ∧ ¬ c.rDel < pdl ∧
      l = [⟨tbl, "I", baseTs parse row c, 1, row⟩]) ∨
    (¬ c.rUpd < pu ∧ c.rDel < pdl ∧
      l = [⟨tbl, "I", baseTs parse row c, 1, row⟩,
           ⟨tbl, "D", clampD (baseTs parse row c + c.delDelta) endD, 2,
            row⟩]) ∨
    (∃ row2, c.rUpd < pu ∧
      _mutate_row_for_table row tbl c.mutCh = some row2 ∧
      ((¬ c.rDel < pdl ∧
        l = [⟨tbl, "I", baseTs parse row c, 1, row⟩,
             ⟨tbl, "U", clampD (baseTs parse row c + c.updDelta) endD, 2,
              row2⟩]) ∨
       (c.rDel < pdl ∧
        l = [⟨tbl, "I", baseTs parse row c, 1, row⟩,
             ⟨tbl, "U", clampD (baseTs parse row c + c.updDelta) endD, 2,
              row2⟩,
             ⟨tbl, "D",
              clampD (clampD (baseTs parse row c + c.updDelta) endD
                + c.delDelta) endD, 3, row2⟩]))) := by
  unfold rowEvents at h
  split at h
  case isTrue hu =>
    split at h
    next hm => exact Option.noConfusion h
    next row2 hm =>
      split at h
      case isTrue hd =>
        simp only [Option.some.injEq] at h
        subst h
        exact Or.inr (Or.inr ⟨row2, hu, hm, Or.inr ⟨hd, rfl⟩⟩)
      case isFalse hd =>
        simp only [Option.some.injEq] at h
        subst h
        exact Or.inr (Or.inr ⟨row2, hu, hm, Or.inl ⟨hd, rfl⟩⟩)
  case isFalse hu =>
    split at h
    case isTrue hd =>
      simp only [Option.some.injEq] at h
      subst h
      exact Or.inr (Or.inl ⟨hu, hd, rfl⟩)
    case isFalse hd =>
      simp only [Option.some.injEq] at h
      subst h
      exact Or.inl ⟨hu, hd, rfl⟩

theorem rowEvents_key_eq {parse : Value → Option Nat} {tbl k : String}
    {endD : Nat} {pu pdl : ℚ} {row : Row} {c : RowChoices} {l : List Event}
    (hk : k ∉ mutatedCols tbl)
    (h : rowEvents parse tbl endD pu pdl row c = some l) :
    ∀ e ∈ l, getCol e.row k = getCol row k := by
  rcases rowEvents_shape h with ⟨_, _, rfl⟩ | ⟨_, _, rfl⟩ |
    ⟨row2, _, hm, ⟨_, rfl⟩ | ⟨_, rfl⟩⟩ <;>
    intro e he <;>
    simp only [List.mem_cons, List.mem_singleton, List.not_mem_nil,
      or_false] at he
  · subst he; rfl
  · rcases he with rfl | rfl <;> rfl
  · rcases he with rfl | rfl
    · rfl
    · exact mutate_frame hm k hk
  · rcases he with rfl | rfl | rfl
    · rfl
    · exact mutate_frame hm k hk
    · exact mutate_frame hm k hk

theorem rowEvents_keyNotNull {parse : Value → Option Nat} {tbl k : String}
    {endD : Nat} {pu pdl : ℚ} {row : Row} {c : RowChoices} {l : List Event}
    (hkey : keyNotNull row k = true)
    (h : rowEvents parse tbl endD pu pdl row c = some l) :
    ∀ e ∈ l, keyNotNull e.row k = true := by
  rcases rowEvents_shape h with ⟨_, _, rfl⟩ | ⟨_, _, rfl⟩ |
    ⟨row2, _, hm, ⟨_, rfl⟩ | ⟨_, rfl⟩⟩ <;>
    intro e he <;>
    simp only [List.mem_cons, List.mem_singleton, List.not_mem_nil,
      or_false] at he
  · subst he; exact hkey
  · rcases he with rfl | rfl <;> exact hkey
  · rcases he with rfl | rfl
    · exact hkey
    · exact mutate_keyNotNull hkey hm
  · rcases he with rfl | rfl | rfl
    · exact hkey
    · exact mutate_keyNotNull hkey hm
    · exact mutate_keyNotNull hkey hm

theorem rowEvents_ts_le {parse : Value → Option Nat} {tbl : String}
    {endD : Nat} {pu pdl : ℚ} {row : Row} {c : RowChoices} {l : List Event}
    (hb : baseTs parse row c ≤ endD)
    (h : rowEvents parse tbl endD pu pdl row c = some l) :
    ∀ e ∈ l, e.cdc_ts ≤ endD := by
  rcases rowEvents_shape h with ⟨_, _, rfl⟩ | ⟨_, _, rfl⟩ |
    ⟨row2, _, hm, ⟨_, rfl⟩ | ⟨_, rfl⟩⟩ <;>
    intro e he <;>
    simp only [List.mem_cons, List.mem_singleton, List.not_mem_nil,
      or_false] at he
  · subst he; exact hb
  · rcases he with rfl | rfl
    · exact hb
    · exact clampD_le _ _
  · rcases he with rfl | rfl
    · exact hb
    · exact clampD_le _ _
  · rcases he with rfl | rfl | rfl
    · exact hb
    · exact clampD_le _ _
    · exact clampD_le _ _

theorem rowEvents_ts_ge {parse : Value → Option Nat} {tbl : String}
    {startD endD : Nat} {pu pdl : ℚ} {row : Row} {c : RowChoices}
    {l : List Event} (hs : startD ≤ baseTs parse row c) (hse : startD ≤ endD)
    (h : rowEvents parse tbl endD pu pdl row c = some l) :
    ∀ e ∈ l, startD ≤ e.cdc_ts := by
  rcases rowEvents_shape h with ⟨_, _, rfl⟩ | ⟨_, _, rfl⟩ |
    ⟨row2, _, hm, ⟨_, rfl⟩ | ⟨_, rfl⟩⟩ <;>
    intro e he <;>
    simp only [List.mem_cons, List.mem_singleton, List.not_mem_nil,
      or_false] at he
  · subst he; exact hs
  · rcases he with rfl | rfl
    · exact hs
    · exact clampD_ge _ _ _ (le_trans hs (Nat.le_add_right _ _)) hse
  · rcases he with rfl | rfl
    · exact hs
    · exact clampD_ge _ _ _ (le_trans hs (Nat.le_add_right _ _)) hse
  · rcases he with rfl | rfl | rfl
    · exact hs
    · exact clampD_ge _ _ _ (le_trans hs (Nat.le_add_right _ _)) hse
    · refine clampD_ge _ _ _ (le_trans ?_ (Nat.le_add_right _ _)) hse
      exact clampD_ge _ _ _ (le_trans hs (Nat.le_add_right _ _)) hse

theorem rowEvents_chain {parse : Value → Option Nat} {tbl : String}
    {endD : Nat} {pu pdl : ℚ} {row : Row} {c : RowChoices} {l : List Event}
    (hb : baseTs parse row c ≤ endD)
    (h : rowEvents parse tbl endD pu pdl row c = some l) :
    l.Chain' (fun a b => a.cdc_ts ≤ b.cdc_ts) := by
  rcases rowEvents_shape h with ⟨_, _, rfl⟩ | ⟨_, _, rfl⟩ |
    ⟨row2, _, hm, ⟨_, rfl⟩ | ⟨_, rfl⟩⟩
  · simp
  · simp only [List.chain'_cons, List.chain'_singleton, and_true]
    exact le_clampD _ _ _ hb
  · simp only [List.chain'_cons, List.chain'_singleton, and_true]
    exact le_clampD _ _ _ hb
  · simp only [List.chain'_cons, List.chain'_singleton, and_true]
    exact ⟨le_clampD _ _ _ hb, le_clampD _ _ _ (clampD_le _ _)⟩

theorem rowEvents_len {parse : Value → Option Nat} {tbl : String}
    {endD : Nat} {pu pdl : ℚ} {row : Row} {c : RowChoices} {l : List Event}
    (h : rowEvents parse tbl endD pu pdl row c = some l) :
    1 ≤ l.length ∧ l.length ≤ 3 := by
  rcases rowEvents_shape h with ⟨_, _, rfl⟩ | ⟨_, _, rfl⟩ |
    ⟨row2, _, hm, ⟨_, rfl⟩ | ⟨_, rfl⟩⟩ <;> simp

theorem rowEvents_pattern {parse : Value → Option Nat} {tbl : String}
    {endD : Nat} {pu pdl : ℚ} {row : Row} {c : RowChoices} {l : List Event}
    (h : rowEvents parse tbl endD pu pdl row c = some l) :
    l.map (fun e => (e.cdc_op, e.cdc_seq)) = [("I", 1)] ∨
    l.map (fun e => (e.cdc_op, e.cdc_seq)) = [("I", 1), ("U", 2)] ∨
    l.map (fun e => (e.cdc_op, e.cdc_seq)) = [("I", 1), ("D", 2)] ∨
    l.map (fun e => (e.cdc_op, e.cdc_seq)) =
      [("I", 1), ("U", 2), ("D", 3)] := by
  rcases rowEvents_shape h with ⟨_, _, rfl⟩ | ⟨_, _, rfl⟩ |
    ⟨row2, _, hm, ⟨_, rfl⟩ | ⟨_, rfl⟩⟩
  · exact Or.inl rfl
  · exact Or.inr (Or.inr (Or.inl rfl))
  · exact Or.inr (Or.inl rfl)
  · exact Or.inr (Or.inr (Or.inr rfl))

theorem rowEvents_counts_eq {parse : Value → Option Nat} {tbl k : String}
    {v : Value} {endD : Nat} {pu pdl : ℚ} {row : Row} {c : RowChoices}
    {l : List Event} (hk : k ∉ mutatedCols tbl)
    (hrow : getCol row k = some v)
    (h : rowEvents parse tbl endD pu pdl row c = some l) :
    countOpKey k v "I" l = 1 ∧ countOpKey k v "U" l ≤ 1 ∧
    countOpKey k v "D" l ≤ 1 ∧
    (∀ e ∈ l, e.cdc_op = "I" → e.cdc_seq = 1) ∧
    (∀ e ∈ l, e.cdc_op = "U" → e.cdc_seq = 2) ∧
    (∀ e ∈ l, e.cdc_op = "D" → e.cdc_seq = 2 + countOpKey k v "U" l) := by
  rcases rowEvents_shape h with ⟨_, _, rfl⟩ | ⟨_, _, rfl⟩ |
    ⟨row2, _, hm, ⟨_, rfl⟩ | ⟨_, rfl⟩⟩
  · refine ⟨by simp [countOpKey, hrow], by simp [countOpKey],
      by simp [countOpKey], ?_, ?_, ?_⟩ <;>
      · intro e he hop
        simp only [List.mem_singleton] at he
        subst he
        first
          | rfl
          | simp at hop
  · refine ⟨by simp [countOpKey, hrow], by simp [countOpKey],
      by simp [countOpKey, hrow], ?_, ?_, ?_⟩
    · intro e he hop
      simp only [List.mem_cons, List.mem_singleton, List.not_mem_nil,
        or_false] at he
      rcases he with rfl | rfl
      · rfl
      · simp at hop
    · intro e he hop
      simp only [List.mem_cons, List.mem_singleton, List.not_mem_nil,
        or_false] at he
      rcases he with rfl | rfl <;> simp at hop
    · intro e he hop
      simp only [List.mem_cons, List.mem_singleton, List.not_mem_nil,
        or_false] at he
      rcases he with rfl | rfl
      · simp at hop
      · simp [countOpKey]
  · have hrow2 : getCol row2 k = some v := by
      rw [mutate_frame hm k hk]; exact hrow
    refine ⟨by simp [countOpKey, hrow], by simp [countOpKey, hrow2],
      by simp [countOpKey], ?_, ?_, ?_⟩
    · intro e he hop
      simp only [List.mem_cons, List.mem_singleton, List.not_mem_nil,
        or_false] at he
      rcases he with rfl | rfl
      · rfl
      · simp at hop
    · intro e he hop
      simp only [List.mem_cons, List.mem_singleton, List.not_mem_nil,
        or_false] at he
      rcases he with rfl | rfl
      · simp at hop
      · rfl
    · intro e he hop
      simp only [List.mem_cons, List.mem_singleton, List.not_mem_nil,
        or_false] at he
      rcases he with rfl | rfl <;> simp at hop
  · have hrow2 : getCol row2 k = some v := by
      rw [mutate_frame hm k hk]; exact hrow
    refine ⟨by simp [countOpKey, hrow], by simp [countOpKey, hrow2],
      by simp [countOpKey, hrow2], ?_, ?_, ?_⟩
    · intro e he hop
      simp only [List.mem_cons, List.mem_singleton, List.not_mem_nil,
        or_false] at he
      rcases he with rfl | rfl | rfl
      · rfl
      · simp at hop
      · simp at hop
    · intro e he hop
      simp only [List.mem_cons, List.mem_singleton, List.not_mem_nil,
        or_false] at he
      rcases he with rfl | rfl | rfl
      · simp at hop
      · rfl
      · simp at hop
    · intro e he hop
      simp only [List.mem_cons, List.mem_singleton, List.not_mem_nil,
        or_false] at he
      rcases he with rfl | rfl | rfl
      · simp at hop
      · simp at hop
      · simp [countOpKey, hrow2]

theorem rowEvents_counts_ne {parse : Value → Option Nat} {tbl k : String}
    {v : Value} {endD : Nat} {pu pdl : ℚ} {row : Row} {c : RowChoices}
    {l : List Event} (hk : k ∉ mutatedCols tbl)
    (hrow : getCol row k ≠ some v)
    (h : rowEvents parse tbl endD pu pdl row c = some l) :
    (∀ e ∈ l, getCol e.row k ≠ some v) ∧
    countOpKey k v "I" l = 0 ∧ countOpKey k v "U" l = 0 ∧
    countOpKey k v "D" l = 0 := by
  have hke := rowEvents_key_eq hk h
  have hne : ∀ e ∈ l, getCol e.row k ≠ some v := fun e he =>
    (hke e he).symm ▸ hrow
  refine ⟨hne, ?_, ?_, ?_⟩ <;>
    · refine List.countP_eq_zero.mpr fun e he => ?_
      simp only [decide_eq_true_eq, not_and]
      exact fun _ => hne e he

theorem rowsEvents_nil {parse : Value → Option Nat} {tbl : String}
    {endD : Nat} {pu pdl : ℚ} {cs : Nat → RowChoices}
    {ls : List (List Event)}
    (h : rowsEvents parse tbl endD pu pdl [] cs = some ls) : ls = [] := by
  unfold rowsEvents at h
  exact (Option.some.inj h).symm

theorem rowsEvents_cons {parse : Value → Option Nat} {tbl : String}
    {endD : Nat} {pu pdl : ℚ} {r : Row} {rest : List Row}
    {cs : Nat → RowChoices} {ls : List (List Event)}
    (h : rowsEvents parse tbl endD pu pdl (r :: rest) cs = some ls) :
    ∃ l ls2, rowEvents parse tbl endD pu pdl r (cs 0) = some l ∧
      rowsEvents parse tbl endD pu pdl rest (fun i => cs (i + 1)) = some ls2 ∧
      ls = l :: ls2 := by
  unfold rowsEvents at h
  cases hl : rowEvents parse tbl endD pu pdl r (cs 0) with
  | none => rw [hl] at h; simp at h
  | some l =>
      rw [hl] at h
      cases hls : rowsEvents parse tbl endD pu pdl rest
          (fun i => cs (i + 1)) with
      | none => rw [hls] at h; simp at h
      | some ls2 =>
          rw [hls] at h
          exact ⟨l, ls2, rfl, rfl, (Option.some.inj h).symm⟩

theorem rowsEvents_mem {parse : Value → Option Nat} {tbl : String}
    {endD : Nat} {pu pdl : ℚ} (Q : RowChoices → Prop) :
    ∀ (rows : List Row) (cs : Nat → RowChoices) (ls : List (List Event)),
      rowsEvents parse tbl endD pu pdl rows cs = some ls →
      (∀ i, Q (cs i)) →
      ∀ e ∈ ls.flatten, ∃ row ∈ rows, ∃ c, Q c ∧
        ∃ l, rowEvents parse tbl endD pu pdl row c = some l ∧ e ∈ l := by
  intro rows
  induction rows with
  | nil =>
      intro cs ls h _ e he
      rw [rowsEvents_nil h] at he
      simp at he
  | cons r rest ih =>
      intro cs ls h hQ e he
      rcases rowsEvents_cons h with ⟨l, ls2, hl, hls2, rfl⟩
      rw [List.flatten_cons, List.mem_append] at he
      rcases he with he | he
      · exact ⟨r, List.mem_cons_self r rest, cs 0, hQ 0, l, hl, he⟩
      · rcases ih (fun i => cs (i + 1)) ls2 hls2 (fun i => hQ (i + 1)) e he
          with ⟨row, hrow, c, hc, l2, hl2, hel2⟩
        exact ⟨row, List.mem_cons_of_mem r hrow, c, hc, l2, hl2, hel2⟩

theorem rowsEvents_len {parse : Value → Option Nat} {tbl : String}
    {endD : Nat} {pu pdl : ℚ} :
    ∀ (rows : List Row) (cs : Nat → RowChoices) (ls : List (List Event)),
      rowsEvents parse tbl endD pu pdl rows cs = some ls →
      rows.length ≤ ls.flatten.length ∧
        ls.flatten.length ≤ 3 * rows.length := by
  intro rows
  induction rows with
  | nil =>
      intro cs ls h
      rw [rowsEvents_nil h]
      simp
  | cons r rest ih =>
      intro cs ls h
      rcases rowsEvents_cons h with ⟨l, ls2, hl, hls2, rfl⟩
      rcases rowEvents_len hl with ⟨h1, h3⟩
      rcases ih (fun i => cs (i + 1)) ls2 hls2 with ⟨ih1, ih2⟩
      constructor
      · simp only [List.flatten_cons, List.length_append, List.length_cons]
        omega
      · simp only [List.flatten_cons, List.length_append, List.length_cons]
        omega

theorem rowsEvents_ts_le {parse : Value → Option Nat} {tbl : String}
    {endD : Nat} {pu pdl : ℚ}
    (hp : ∀ v d, parse v = some d → d ≤ endD) :
    ∀ (rows : List Row) (cs : Nat → RowChoices) (ls : List (List Event)),
      rowsEvents parse tbl endD pu pdl rows cs = some ls →
      (∀ i, (cs i).fallbackDate ≤ endD) →
      ∀ e ∈ ls.flatten, e.cdc_ts ≤ endD := by
  intro rows
  induction rows with
  | nil =>
      intro cs ls h _ e he
      rw [rowsEvents_nil h] at he
      simp at he
  | cons r rest ih =>
      intro cs ls h hf e he
      rcases rowsEvents_cons h with ⟨l, ls2, hl, hls2, rfl⟩
      rw [List.flatten_cons, List.mem_append] at he
      rcases he with he | he
      · exact rowEvents_ts_le (baseTs_le (hf 0) hp) hl e he
      · exact ih (fun i => cs (i + 1)) ls2 hls2 (fun i => hf (i + 1)) e he

theorem rowsEvents_ts_ge {parse : Value → Option Nat} {tbl : String}
    {startD endD : Nat} {pu pdl : ℚ} (hse : startD ≤ endD)
    (hp : ∀ v d, parse v = some d → startD ≤ d) :
    ∀ (rows : List Row) (cs : Nat → RowChoices) (ls : List (List Event)),
      rowsEvents parse tbl endD pu pdl rows cs = some ls →
      (∀ i, startD ≤ (cs i).fallbackDate) →
      ∀ e ∈ ls.flatten, startD ≤ e.cdc_ts := by
  intro rows
  induction rows with
  | nil =>
      intro cs ls h _ e he
      rw [rowsEvents_nil h] at he
      simp at he
  | cons r rest ih =>
      intro cs ls h hf e he
      rcases rowsEvents_cons h with ⟨l, ls2, hl, hls2, rfl⟩
      rw [List.flatten_cons, List.mem_append] at he
      rcases he with he | he
      · exact rowEvents_ts_ge (baseTs_ge (hf 0) hp) hse hl e he
      · exact ih (fun i => cs (i + 1)) ls2 hls2 (fun i => hf (i + 1)) e he

theorem rowsEvents_keyNotNull {parse : Value → Option Nat} {tbl k : String}
    {endD : Nat} {pu pdl : ℚ} :
    ∀ (rows : List Row) (cs : Nat → RowChoices) (ls : List (List Event)),
      rowsEvents parse tbl endD pu pdl rows cs = some ls →
      (∀ r ∈ rows, keyNotNull r k = true) →
      ∀ e ∈ ls.flatten, keyNotNull e.row k = true := by
  intro rows
  induction rows with
  | nil =>
      intro cs ls h _ e he
      rw [rowsEvents_nil h] at he
      simp at he
  | cons r rest ih =>
      intro cs ls h hk e he
      rcases rowsEvents_cons h with ⟨l, ls2, hl, hls2, rfl⟩
      rw [List.flatten_cons, List.mem_append] at he
      rcases he with he | he
      · exact rowEvents_keyNotNull (hk r (List.mem_cons_self r rest)) hl e he
      · exact ih (fun i => cs (i + 1)) ls2 hls2
          (fun q hq => hk q (List.mem_cons_of_mem r hq)) e he

theorem countOpKey_append (k : String) (v : Value) (op : String)
    (l1 l2 : List Event) :
    countOpKey k v op (l1 ++ l2) =
      countOpKey k v op l1 + countOpKey k v op l2 := by
  unfold countOpKey
  exact List.countP_append _ _ _

theorem rowsEvents_counts {parse : Value → Option Nat} {tbl k : String}
    {v : Value} {endD : Nat} {pu pdl : ℚ} (hk : k ∉ mutatedCols tbl) :
    ∀ (rows : List Row) (cs : Nat → RowChoices) (ls : List (List Event)),
      rowsEvents parse tbl endD pu pdl rows cs = some ls →
      countOpKey k v "I" ls.flatten =
          rows.countP (fun r => decide (getCol r k = some v)) ∧
      countOpKey k v "U" ls.flatten ≤
          rows.countP (fun r => decide (getCol r k = some v)) ∧
      countOpKey k v "D" ls.flatten ≤
          rows.countP (fun r => decide (getCol r k = some v)) ∧
      (∀ e ∈ ls.flatten, getCol e.row k = some v → e.cdc_op = "I" →
          e.cdc_seq = 1) ∧
      (∀ e ∈ ls.flatten, getCol e.row k = some v → e.cdc_op = "U" →
          e.cdc_seq = 2) ∧
      (rows.countP (fun r => decide (getCol r k = some v)) = 0 →
          ∀ e ∈ ls.flatten, getCol e.row k ≠ some v) ∧
      (rows.countP (fun r => decide (getCol r k = some v)) ≤ 1 →
          ∀ e ∈ ls.flatten, getCol e.row k = some v → e.cdc_op = "D" →
            e.cdc_seq = 2 + countOpKey k v "U" ls.flatten) := by
  intro rows
  induction rows with
  | nil =>
      intro cs ls h
      rw [rowsEvents_nil h]
      simp [countOpKey]
  | cons r rest ih =>
      intro cs ls h
      rcases rowsEvents_cons h with ⟨l, ls2, hl, hls2, rfl⟩
      obtain ⟨ih1, ih2, ih3, ih4, ih5, ih6, ih7⟩ :=
        ih (fun i => cs (i + 1)) ls2 hls2
      by_cases hr : getCol r k = some v
      · obtain ⟨c1, c2, c3, c4, c5, c6⟩ := rowEvents_counts_eq hk hr hl
        have hcp : (r :: rest).countP
              (fun r => decide (getCol r k = some v)) =
            rest.countP (fun r => decide (getCol r k = some v)) + 1 := by
          simp [List.countP_cons, hr]
        refine ⟨?_, ?_, ?_, ?_, ?_, ?_, ?_⟩
        · rw [List.flatten_cons, countOpKey_append, hcp, c1, ih1]
          omega
        · rw [List.flatten_cons, countOpKey_append, hcp]
          omega
        · rw [List.flatten_cons, countOpKey_append, hcp]
          omega
        · intro e he hev hop
          rw [List.flatten_cons, List.mem_append] at he
          rcases he with he | he
          · exact c4 e he hop
          · exact ih4 e he hev hop
        · intro e he hev hop
          rw [List.flatten_cons, List.mem_append] at he
          rcases he with he | he
          · exact c5 e he hop
          · exact ih5 e he hev hop
        · intro h0
          rw [hcp] at h0
          exact (Nat.succ_ne_zero _ h0).elim
        · intro hm1 e he hev hop
          rw [hcp] at hm1
          have hrest0 : rest.countP
              (fun r => decide (getCol r k = some v)) = 0 := by omega
          have hU2 : countOpKey k v "U" ls2.flatten = 0 := by
            rw [hrest0] at ih2
            omega
          rw [List.flatten_cons, List.mem_append] at he
          rcases he with he | he
          · rw [List.flatten_cons, countOpKey_append, hU2, Nat.add_zero]
            exact c6 e he hop
          · exact absurd hev (ih6 hrest0 e he)
      · obtain ⟨n1, n2, n3, n4⟩ := rowEvents_counts_ne hk hr hl
        have hcp : (r :: rest).countP
              (fun r => decide (getCol r k = some v)) =
            rest.countP (fun r => decide (getCol r k = some v)) := by
          simp [List.countP_cons, hr]
        refine ⟨?_, ?_, ?_, ?_, ?_, ?_, ?_⟩
        · rw [List.flatten_cons, countOpKey_append, n2, hcp, ih1]
          omega
        · rw [List.flatten_cons, countOpKey_append, n3, hcp]
          omega
        · rw [List.flatten_cons, countOpKey_append, n4, hcp]
          omega
        · intro e he hev hop
          rw [List.flatten_cons, List.mem_append] at he
          rcases he with he | he
          · exact absurd hev (n1 e he)
          · exact ih4 e he hev hop
        · intro e he hev hop
          rw [List.flatten_cons, List.mem_append] at he
          rcases he with he | he
          · exact absurd hev (n1 e he)
          · exact ih5 e he hev hop
        · intro h0 e he hev
          rw [hcp] at h0
          rw [List.flatten_cons, List.mem_append] at he
          rcases he with he | he
          · exact (n1 e he) hev
          · exact (ih6 h0 e he) hev
        · intro hm1 e he hev hop
          rw [hcp] at hm1
          rw [List.flatten_cons, List.mem_append] at he
          rcases he with he | he
          · exact absurd hev (n1 e he)
          · rw [List.flatten_cons, countOpKey_append, n3, Nat.zero_add]
            exact ih7 hm1 e he hev hop

theorem generate_erp_cdc_eq {parse : Value → Option Nat} {base_df : List Row}
    {k tbl : String} {startD endD : Nat} {pu pdl : ℚ}
    {cs : Nat → RowChoices} {evs : List Event}
    (h : generate_erp_cdc parse base_df k tbl startD endD pu pdl cs =
      some evs) :
    ∃ ls, rowsEvents parse tbl endD pu pdl
        (base_df.filter fun r => keyNotNull r k) cs = some ls ∧
      evs = List.insertionSort (eventLE k) ls.flatten := by
  unfold generate_erp_cdc at h
  rcases Option.map_eq_some'.mp h with ⟨ls, hls, hev⟩
  exact ⟨ls, hls, hev.symm⟩

theorem eventLE_ts_of_keyEq {k : String} {a b : Event} (h : eventLE k a b)
    (hab : keyColKey k a = keyColKey k b) : a.cdc_ts ≤ b.cdc_ts := by
  unfold eventLE eventKey at h
  rcases (Prod.Lex.le_iff _ _).mp h with hlt | ⟨_, hle⟩
  · rw [hab] at hlt
    exact absurd hlt (lt_irrefl _)
  · rcases (Prod.Lex.le_iff _ _).mp hle with h2 | ⟨h2, _⟩
    · exact le_of_lt h2
    · exact le_of_eq h2

theorem sorted_filter_ts {k : String} {v : Value} {evs : List Event}
    (hs : evs.Sorted (eventLE k)) :
    (evs.filter fun e => decide (getCol e.row k = some v)).Pairwise
      (fun a b => a.cdc_ts ≤ b.cdc_ts) := by
  have h2 : (evs.filter fun e => decide (getCol e.row k = some v)).Pairwise
      (eventLE k) :=
    List.Pairwise.sublist (List.filter_sublist evs) hs
  refine List.Pairwise.imp_of_mem ?_ h2
  intro a b ha hb hle
  have ha' := List.of_mem_filter ha
  have hb' := List.of_mem_filter hb
  simp only [decide_eq_true_eq] at ha' hb'
  refine eventLE_ts_of_keyEq hle ?_
  unfold keyColKey
  rw [ha', hb']

theorem countP_le_one_of_nodup_map {α β : Type} [DecidableEq β] (f : α → β)
    {l : List α} (hl : (l.map f).Nodup) (x : β) :
    l.countP (fun a => decide (f a = x)) ≤ 1 := by
  induction l with
  | nil => simp
  | cons a t ih =>
      rw [List.map_cons, List.nodup_cons] at hl
      rw [List.countP_cons]
      by_cases hax : f a = x
      · have ht : t.countP (fun a => decide (f a = x)) = 0 := by
          refine List.countP_eq_zero.mpr fun b hb => ?_
          simp only [decide_eq_true_eq]
          intro hbx
          apply hl.1
          rw [hax, ← hbx]
          exact List.mem_map_of_mem f hb
        simp [hax, ht]
      · simp only [hax, decide_eq_false_iff_not, if_neg, decide_eq_true_eq]
        simpa [hax] using ih hl.2

/-- Claim C2: the event list produced by `generate_erp_cdc` is, before
being returned and written, sorted in non-decreasing lexicographic order of
(business-key value, cdc_ts, cdc_seq), and for a fixed input snapshot and
fixed random choices the resulting ordering is deterministic (any two
results of the same call coincide). -/
theorem C2_sorted_deterministic (parse : Value → Option Nat)
    (base_df : List Row) (key_col tbl : String) (startD endD : Nat)
    (pu pdl : ℚ) (cs : Nat → RowChoices) (evs : List Event)
    (hgen : generate_erp_cdc parse base_df key_col tbl startD endD pu pdl cs
      = some evs) :
    evs.Sorted (eventLE key_col) ∧
      ∀ evs2, generate_erp_cdc parse base_df key_col tbl startD endD pu pdl
        cs = some evs2 → evs2 = evs := by
  rcases generate_erp_cdc_eq hgen with ⟨ls, hls, rfl⟩
  refine ⟨List.sorted_insertionSort _ _, ?_⟩
  intro evs2 h2
  rcases generate_erp_cdc_eq h2 with ⟨ls2, hls2, hev2⟩
  rw [hls] at hls2
  cases Option.some.inj hls2
  exact hev2

theorem C2_witness :
    wLog1.Sorted (eventLE "customer_id") ∧
      ∀ evs2, generate_erp_cdc (fun _ => none) [cxRowA] "customer_id"
        "erp_customers" 0 10 (mkRat 4 10) (mkRat 15 100) (fun _ => rcNone) =
          some evs2 → evs2 = wLog1 :=
  C2_sorted_deterministic (fun _ => none) [cxRowA] "customer_id"
    "erp_customers" 0 10 (mkRat 4 10) (mkRat 15 100) (fun _ => rcNone)
    wLog1 (by decide)

/-- Claim C3: every event in a log returned by `generate_erp_cdc` carries
a non-null business-key value; no event is emitted for a source row whose
key is null. -/
theorem C3_no_null_key_event (parse : Value → Option Nat)
    (base_df : List Row) (key_col tbl : String) (startD endD : Nat)
    (pu pdl : ℚ) (cs : Nat → RowChoices) (evs : List Event)
    (hgen : generate_erp_cdc parse base_df key_col tbl startD endD pu pdl cs
      = some evs) :
    ∀ e ∈ evs, ∃ v, getCol e.row key_col = some v ∧ v ≠ Value.null := by
  rcases generate_erp_cdc_eq hgen with ⟨ls, hls, rfl⟩
  intro e he
  have he2 : e ∈ ls.flatten := (List.mem_insertionSort _).mp he
  have hall : ∀ r ∈ (base_df.filter fun r => keyNotNull r key_col),
      keyNotNull r key_col = true := fun r hr => (List.mem_filter.mp hr).2
  exact keyNotNull_getCol
    (rowsEvents_keyNotNull _ cs ls hls hall e he2)

theorem C3_witness :
    ∃ v, getCol (⟨"erp_customers", "I", 5, 1, cxRowA⟩ : Event).row
      "customer_id" = some v ∧ v ≠ Value.null :=
  C3_no_null_key_event (fun _ => none) [cxRowA] "customer_id"
    "erp_customers" 0 10 (mkRat 4 10) (mkRat 15 100) (fun _ => rcNone)
    wLog1 (by decide) ⟨"erp_customers", "I", 5, 1, cxRowA⟩ (by decide)

/-- Claim C7: when the row has a non-null `created_at` whose parse fails,
the failure is absorbed locally: the base timestamp falls back to the
random in-range date, and the per-row event synthesis still returns
normally (whenever the Update branch's own mutation does not raise, which
a parse failure never influences). -/
theorem C7_parse_failure_fallback (parse : Value → Option Nat)
    (tbl : String) (endD : Nat) (pu pdl : ℚ) (row : Row) (c : RowChoices)
    (v : Value) (hca : getCol row "created_at" = some v)
    (hv : v ≠ Value.null) (hp : parse v = none)
    (hm : c.rUpd < pu → (_mutate_row_for_table row tbl c.mutCh).isSome) :
    baseTs parse row c = c.fallbackDate ∧
      (rowEvents parse tbl endD pu pdl row c).isSome := by
  have hb : baseTs parse row c = c.fallbackDate := by
    unfold baseTs
    simp only [hca, hp, if_neg hv]
  refine ⟨hb, ?_⟩
  unfold rowEvents
  split
  case isTrue hu =>
    rcases Option.isSome_iff_exists.mp (hm hu) with ⟨row2, hrow2⟩
    rw [hrow2]
    split
    next heq => exact Option.noConfusion heq
    next u heq => split <;> simp
  case isFalse hu =>
    split <;> simp

theorem C7_witness :
    baseTs (fun _ => none) cxRowBad rcNone = rcNone.fallbackDate ∧
      (rowEvents (fun _ => none) "erp_customers" 10 (mkRat 4 10)
        (mkRat 15 100) cxRowBad rcNone).isSome :=
  C7_parse_failure_fallback (fun _ => none) "erp_customers" 10 (mkRat 4 10)
    (mkRat 15 100) cxRowBad rcNone (Value.str "not a date") (by decide)
    (by decide) rfl (fun h => absurd h (by decide))

/-- Claim C8: a full generation run is a pure function of the seed-derived
random stream and the parameters: two runs with the same stream and the
same parameters produce identical outputs for every table and event log. -/
theorem C8_run_deterministic (render : Nat → String)
    (parse : Value → Option Nat) (p : RunParams) (o1 o2 : RunOracle)
    (h : o1 = o2) :
    generate_run render parse p o1 = generate_run render parse p o2 := by
  rw [h]

theorem C8_witness :
    generate_run erpRender erpParse runParams0 runOracle0 =
      generate_run erpRender erpParse runParams0 runOracle0 :=
  C8_run_deterministic erpRender erpParse runParams0 runOracle0
    runOracle0 rfl

/-- Claim C9: CDC mutation is pure: `_mutate_row_for_table` returns a
fresh row agreeing with the source row on every column outside the table's
mutation set, and the Insert event emitted for the row still carries the
unmodified source row even when a mutation is applied afterwards. -/
theorem C9_mutation_pure (parse : Value → Option Nat) (tbl : String)
    (endD : Nat) (pu pdl : ℚ) (row row2 : Row) (ch : RowChoices)
    (l : List Event)
    (hmut : _mutate_row_for_table row tbl ch.mutCh = some row2)
    (hl : rowEvents parse tbl endD pu pdl row ch = some l) :
    (∀ col, col ∉ mutatedCols tbl → getCol row2 col = getCol row col) ∧
      ∀ e ∈ l, e.cdc_op = "I" → e.row = row := by
  refine ⟨mutate_frame hmut, ?_⟩
  rcases rowEvents_shape hl with ⟨_, _, rfl⟩ | ⟨_, _, rfl⟩ |
    ⟨r2, _, hm, ⟨_, rfl⟩ | ⟨_, rfl⟩⟩
  · intro e he hop
    simp only [List.mem_singleton] at he
    subst he
    rfl
  · intro e he hop
    simp only [List.mem_cons, List.mem_singleton, List.not_mem_nil,
      or_false] at he
    rcases he with rfl | rfl
    · rfl
    · simp at hop
  · intro e he hop
    simp only [List.mem_cons, List.mem_singleton, List.not_mem_nil,
      or_false] at he
    rcases he with rfl | rfl
    · rfl
    · simp at hop
  · intro e he hop
    simp only [List.mem_cons, List.mem_singleton, List.not_mem_nil,
      or_false] at he
    rcases he with rfl | rfl | rfl
    · rfl
    · simp at hop
    · simp at hop

theorem C9_witness :
    (∀ col, col ∉ mutatedCols "erp_customers" →
      getCol cxRowAX col = getCol cxRowA col) ∧
      ∀ e ∈ wLogA3, e.cdc_op = "I" → e.row = cxRowA :=
  C9_mutation_pure (fun _ => none) "erp_customers" d20241231 (mkRat 4 10)
    (mkRat 15 100) cxRowA cxRowAX rcAll wLogA3 (by decide) (by decide)

/-- Claim C10: each source row processed by `generate_erp_cdc` emits
exactly one of the operation patterns I, IU, ID, IUD with sequence numbers
1, 2, ... in emission order, with non-decreasing timestamps, and every
event of the row carries the row's own business-key value, the mutation
rule never touching the key column. -/
theorem C10_per_row_pattern (parse : Value → Option Nat) (tbl k : String)
    (endD : Nat) (pu pdl : ℚ) (row : Row) (c : RowChoices) (l : List Event)
    (hk : k ∉ mutatedCols tbl) (hb : baseTs parse row c ≤ endD)
    (h : rowEvents parse tbl endD pu pdl row c = some l) :
    (l.map (fun e => (e.cdc_op, e.cdc_seq)) = [("I", 1)] ∨
     l.map (fun e => (e.cdc_op, e.cdc_seq)) = [("I", 1), ("U", 2)] ∨
     l.map (fun e => (e.cdc_op, e.cdc_seq)) = [("I", 1), ("D", 2)] ∨
     l.map (fun e => (e.cdc_op, e.cdc_seq)) =
       [("I", 1), ("U", 2), ("D", 3)]) ∧
    l.Chain' (fun a b => a.cdc_ts ≤ b.cdc_ts) ∧
    ∀ e ∈ l, getCol e.row k = getCol row k :=
  ⟨rowEvents_pattern h, rowEvents_chain hb h, rowEvents_key_eq hk h⟩

theorem C10_witness :
    (wLogA3.map (fun e => (e.cdc_op, e.cdc_seq)) = [("I", 1)] ∨
     wLogA3.map (fun e => (e.cdc_op, e.cdc_seq)) = [("I", 1), ("U", 2)] ∨
     wLogA3.map (fun e => (e.cdc_op, e.cdc_seq)) = [("I", 1), ("D", 2)] ∨
     wLogA3.map (fun e => (e.cdc_op, e.cdc_seq)) =
       [("I", 1), ("U", 2), ("D", 3)]) ∧
    wLogA3.Chain' (fun a b => a.cdc_ts ≤ b.cdc_ts) ∧
    ∀ e ∈ wLogA3, getCol e.row "customer_id" = getCol cxRowA
      "customer_id" :=
  C10_per_row_pattern (fun _ => none) "erp_customers" "customer_id"
    d20241231 (mkRat 4 10) (mkRat 15 100) cxRowA rcAll wLogA3 (by decide)
    (by decide) (by decide)

/-- Claim C4: every Delete event a `generate_erp_cdc` log carries comes
from one working row and holds that row's most recent state: the mutated
copy when an Update was emitted for the row, the original snapshot row
otherwise; and its timestamp is at least the preceding event's timestamp
(the Update's clamped timestamp, respectively the base timestamp) and at
most the configured end date. -/
theorem C4_delete_latest_state (parse : Value → Option Nat)
    (base_df : List Row) (key_col tbl : String) (startD endD : Nat)
    (pu pdl : ℚ) (cs : Nat → RowChoices) (evs : List Event)
    (hgen : generate_erp_cdc parse base_df key_col tbl startD endD pu pdl cs
      = some evs)
    (hfall : ∀ i, (cs i).fallbackDate ≤ endD)
    (hparse : ∀ v d, parse v = some d → d ≤ endD) :
    ∀ e ∈ evs, e.cdc_op = "D" →
      ∃ row ∈ base_df.filter (fun r => keyNotNull r key_col),
        ∃ c : RowChoices, ∃ l,
          rowEvents parse tbl endD pu pdl row c = some l ∧ e ∈ l ∧
          ((∃ row2, c.rUpd < pu ∧
              _mutate_row_for_table row tbl c.mutCh = some row2 ∧
              e.row = row2 ∧
              clampD (baseTs parse row c + c.updDelta) endD ≤ e.cdc_ts) ∨
           (¬ c.rUpd < pu ∧ e.row = row ∧
              baseTs parse row c ≤ e.cdc_ts)) ∧
          e.cdc_ts ≤ endD := by
  rcases generate_erp_cdc_eq hgen with ⟨ls, hls, rfl⟩
  intro e he hop
  have he2 : e ∈ ls.flatten := (List.mem_insertionSort _).mp he
  rcases rowsEvents_mem (fun c => c.fallbackDate ≤ endD) _ cs ls hls hfall
      e he2 with ⟨row, hrow, c, hc, l, hl, hel⟩
  have hb : baseTs parse row c ≤ endD := baseTs_le hc hparse
  refine ⟨row, hrow, c, l, hl, hel, ?_, rowEvents_ts_le hb hl e hel⟩
  rcases rowEvents_shape hl with ⟨hu, hd, rfl⟩ | ⟨hu, hd, rfl⟩ |
    ⟨row2, hu, hm, ⟨hd, rfl⟩ | ⟨hd, rfl⟩⟩
  · simp only [List.mem_singleton] at hel
    subst hel
    simp at hop
  · simp only [List.mem_cons, List.mem_singleton, List.not_mem_nil,
      or_false] at hel
    rcases hel with rfl | rfl
    · simp at hop
    · exact Or.inr ⟨hu, rfl, le_clampD _ _ _ hb⟩
  · simp only [List.mem_cons, List.mem_singleton, List.not_mem_nil,
      or_false] at hel
    rcases hel with rfl | rfl
    · simp at hop
    · simp at hop
  · simp only [List.mem_cons, List.mem_singleton, List.not_mem_nil,
      or_false] at hel
    rcases hel with rfl | rfl | rfl
    · simp at hop
    · simp at hop
    · exact Or.inl ⟨row2, hu, hm, rfl, le_clampD _ _ _ (clampD_le _ _)⟩

theorem C4_witness :
    ∃ row ∈ [cxRowA].filter (fun r => keyNotNull r "customer_id"),
      ∃ c : RowChoices, ∃ l,
        rowEvents (fun _ => none) "erp_customers" d20241231 (mkRat 4 10)
          (mkRat 15 100) row c = some l ∧
        (⟨"erp_customers", "D", 737427, 3, cxRowAX⟩ : Event) ∈ l ∧
        ((∃ row2, c.rUpd < mkRat 4 10 ∧
            _mutate_row_for_table row "erp_customers" c.mutCh =
              some row2 ∧
            cxRowAX = row2 ∧
            clampD (baseTs (fun _ => none) row c + c.updDelta)
              d20241231 ≤ 737427) ∨
         (¬ c.rUpd < mkRat 4 10 ∧ cxRowAX = row ∧
            baseTs (fun _ => none) row c ≤ 737427)) ∧
        737427 ≤ d20241231 :=
  C4_delete_latest_state (fun _ => none) [cxRowA] "customer_id"
    "erp_customers" 0 d20241231 (mkRat 4 10) (mkRat 15 100)
    (fun _ => rcAll) wLogA3 (by decide)
    (fun _ => by show rcAll.fallbackDate ≤ d20241231; decide)
    (fun v d h => Option.noConfusion h)
    ⟨"erp_customers", "D", 737427, 3, cxRowAX⟩ (by decide) rfl

set_option maxRecDepth 10000 in
/-- Claim C5 counterexample: with `num_customers = 10`, ten non-null
distinct ids, in-range dates and the default `p_update = 0.4`,
`p_delete = 0.15`, a random stream on which every Update and Delete gate
fires yields an `erp_customers` CDC log of 30 rows — outside the 10-to-20
range the claim asserts for the generated log. -/
theorem C5_counterexample :
    ((generate_erp_data erpRender erpParse 10 0 0
        erpAllFire).customersCdc).map List.length = some 30 ∧
      ¬(30 ≤ 20) :=
  ⟨by decide, by decide⟩

/-- Claim C5 (amended): the CDC log of a snapshot holds between `n` and
`3 * n` rows inclusive, where `n` is the number of snapshot rows with a
non-null business key (for ten customers with non-null ids: between 10 and
30 rows), and — when base dates and fallback dates lie in the configured
range — every row's `cdc_ts` lies within the start/end bounds. -/
theorem C5_row_count_bounds (parse : Value → Option Nat)
    (base_df : List Row) (key_col tbl : String) (startD endD : Nat)
    (pu pdl : ℚ) (cs : Nat → RowChoices) (evs : List Event)
    (hgen : generate_erp_cdc parse base_df key_col tbl startD endD pu pdl cs
      = some evs)
    (hf1 : ∀ i, startD ≤ (cs i).fallbackDate)
    (hf2 : ∀ i, (cs i).fallbackDate ≤ endD)
    (hp1 : ∀ v d, parse v = some d → startD ≤ d)
    (hp2 : ∀ v d, parse v = some d → d ≤ endD)
    (hse : startD ≤ endD) :
    (base_df.filter fun r => keyNotNull r key_col).length ≤ evs.length ∧
      evs.length ≤
        3 * (base_df.filter fun r => keyNotNull r key_col).length ∧
      ∀ e ∈ evs, startD ≤ e.cdc_ts ∧ e.cdc_ts ≤ endD := by
  rcases generate_erp_cdc_eq hgen with ⟨ls, hls, rfl⟩
  rcases rowsEvents_len _ cs ls hls with ⟨hlen1, hlen2⟩
  have hslen : (List.insertionSort (eventLE key_col) ls.flatten).length =
      ls.flatten.length := List.length_insertionSort _ _
  refine ⟨?_, ?_, ?_⟩
  · rw [hslen]; exact hlen1
  · rw [hslen]; exact hlen2
  · intro e he
    have he2 : e ∈ ls.flatten := (List.mem_insertionSort _).mp he
    exact ⟨rowsEvents_ts_ge hse hp1 _ cs ls hls hf1 e he2,
      rowsEvents_ts_le hp2 _ cs ls hls hf2 e he2⟩

theorem C5_witness :
    ([cxRowA, cxRowB].filter fun r =>
        keyNotNull r "customer_id").length ≤ wLogAB6.length ∧
      wLogAB6.length ≤ 3 * ([cxRowA, cxRowB].filter fun r =>
        keyNotNull r "customer_id").length ∧
      ∀ e ∈ wLogAB6, 0 ≤ e.cdc_ts ∧ e.cdc_ts ≤ d20241231 :=
  C5_row_count_bounds (fun _ => none) [cxRowA, cxRowB] "customer_id"
    "erp_customers" 0 d20241231 (mkRat 4 10) (mkRat 15 100)
    (fun _ => rcAll) wLogAB6 (by decide) (fun _ => Nat.zero_le _)
    (fun _ => by show rcAll.fallbackDate ≤ d20241231; decide)
    (fun v d h => Option.noConfusion h)
    (fun v d h => Option.noConfusion h) (Nat.zero_le _)

/-- Claim C1 counterexample: a snapshot may carry the same business-key
value on two distinct rows (the generators draw ids at random, and the
address table reuses customer ids), and then the returned log holds two
Insert events for that single distinct key value — not exactly one as the
claim states.  Here two rows share key `"K"`, both gates stay silent, and
the log counts two Inserts (each with `cdc_seq = 1`) for key `"K"`. -/
theorem C1_counterexample :
    (generate_erp_cdc (fun _ => none) [cxRowK, cxRowK] "customer_id"
        "erp_customers" 0 10 (mkRat 4 10) (mkRat 15 100) fun _ => rcNone) =
      some [⟨"erp_customers", "I", 5, 1, cxRowK⟩,
            ⟨"erp_customers", "I", 5, 1, cxRowK⟩] ∧
      countOpKey "customer_id" (Value.str "K") "I"
        [⟨"erp_customers", "I", 5, 1, cxRowK⟩,
         ⟨"erp_customers", "I", 5, 1, cxRowK⟩] = 2 ∧
      ¬(2 = 1) :=
  ⟨by decide, by decide, by decide⟩

/-- Claim C1 (amended): in a log returned by `generate_erp_cdc`, provided
the non-null key values are pairwise distinct across the snapshot's rows
(and the key column is not one the table's mutation rule touches, as in
each of the program's three calls), every distinct business-key value
occurring in the log has exactly one Insert event with `cdc_seq = 1`, at
most one Update with `cdc_seq = 2`, at most one Delete whose `cdc_seq` is
the next sequence number after the last preceding event, timestamps
non-decreasing along the key's events in the log, and all the key's
timestamps at most the configured end date (base dates in range). -/
theorem C1_per_key_invariants (parse : Value → Option Nat)
    (base_df : List Row) (key_col tbl : String) (startD endD : Nat)
    (pu pdl : ℚ) (cs : Nat → RowChoices) (evs : List Event)
    (hgen : generate_erp_cdc parse base_df key_col tbl startD endD pu pdl cs
      = some evs)
    (hmc : key_col ∉ mutatedCols tbl)
    (hnd : ((base_df.filter fun r => keyNotNull r key_col).map
      fun r => getCol r key_col).Nodup)
    (hf2 : ∀ i, (cs i).fallbackDate ≤ endD)
    (hp2 : ∀ v d, parse v = some d → d ≤ endD) :
    ∀ v : Value, (∃ e ∈ evs, getCol e.row key_col = some v) →
      countOpKey key_col v "I" evs = 1 ∧
      (∀ e ∈ evs, getCol e.row key_col = some v → e.cdc_op = "I" →
        e.cdc_seq = 1) ∧
      countOpKey key_col v "U" evs ≤ 1 ∧
      (∀ e ∈ evs, getCol e.row key_col = some v → e.cdc_op = "U" →
        e.cdc_seq = 2) ∧
      countOpKey key_col v "D" evs ≤ 1 ∧
      (∀ e ∈ evs, getCol e.row key_col = some v → e.cdc_op = "D" →
        e.cdc_seq = 2 + countOpKey key_col v "U" evs) ∧
      (evs.filter fun e =>
        decide (getCol e.row key_col = some v)).Pairwise
        (fun a b => a.cdc_ts ≤ b.cdc_ts) ∧
      (∀ e ∈ evs, getCol e.row key_col = some v → e.cdc_ts ≤ endD) := by
  rcases generate_erp_cdc_eq hgen with ⟨ls, hls, rfl⟩
  intro v hv
  obtain ⟨cc1, cc2, cc3, cc4, cc5, cc6, cc7⟩ :=
    rowsEvents_counts (v := v) hmc _ cs ls hls
  have hperm : List.Perm
      (List.insertionSort (eventLE key_col) ls.flatten) ls.flatten :=
    List.perm_insertionSort _ _
  have htrans : ∀ op, countOpKey key_col v op
      (List.insertionSort (eventLE key_col) ls.flatten) =
      countOpKey key_col v op ls.flatten := fun op => hperm.countP_eq _
  have hm1 : (base_df.filter fun r => keyNotNull r key_col).countP
      (fun r => decide (getCol r key_col = some v)) ≤ 1 :=
    countP_le_one_of_nodup_map _ hnd v
  have hm0 : (base_df.filter fun r => keyNotNull r key_col).countP
      (fun r => decide (getCol r key_col = some v)) ≠ 0 := by
    intro h0
    rcases hv with ⟨e, he, hev⟩
    exact cc6 h0 e (hperm.mem_iff.mp he) hev
  have hm : (base_df.filter fun r => keyNotNull r key_col).countP
      (fun r => decide (getCol r key_col = some v)) = 1 := by omega
  refine ⟨?_, ?_, ?_, ?_, ?_, ?_, ?_, ?_⟩
  · rw [htrans, cc1, hm]
  · intro e he hev hop
    exact cc4 e (hperm.mem_iff.mp he) hev hop
  · rw [htrans]
    omega
  · intro e he hev hop
    exact cc5 e (hperm.mem_iff.mp he) hev hop
  · rw [htrans]
    omega
  · intro e he hev hop
    rw [htrans]
    exact cc7 hm1 e (hperm.mem_iff.mp he) hev hop
  · exact sorted_filter_ts (List.sorted_insertionSort _ _)
  · intro e he _
    exact rowsEvents_ts_le hp2 _ cs ls hls hf2 e (hperm.mem_iff.mp he)

theorem C1_witness :
    countOpKey "customer_id" (Value.str "A") "I" wLogAB2 = 1 ∧
      (∀ e ∈ wLogAB2, getCol e.row "customer_id" = some (Value.str "A") →
        e.cdc_op = "I" → e.cdc_seq = 1) ∧
      countOpKey "customer_id" (Value.str "A") "U" wLogAB2 ≤ 1 ∧
      (∀ e ∈ wLogAB2, getCol e.row "customer_id" = some (Value.str "A") →
        e.cdc_op = "U" → e.cdc_seq = 2) ∧
      countOpKey "customer_id" (Value.str "A") "D" wLogAB2 ≤ 1 ∧
      (∀ e ∈ wLogAB2, getCol e.row "customer_id" = some (Value.str "A") →
        e.cdc_op = "D" → e.cdc_seq =
          2 + countOpKey "customer_id" (Value.str "A") "U" wLogAB2) ∧
      (wLogAB2.filter fun e =>
        decide (getCol e.row "customer_id" = some (Value.str "A"))).Pairwise
        (fun a b => a.cdc_ts ≤ b.cdc_ts) ∧
      (∀ e ∈ wLogAB2, getCol e.row "customer_id" = some (Value.str "A") →
        e.cdc_ts ≤ 10) :=
  C1_per_key_invariants (fun _ => none) [cxRowA, cxRowB] "customer_id"
    "erp_customers" 0 10 (mkRat 4 10) (mkRat 15 100) (fun _ => rcNone)
    wLogAB2 (by decide) (by decide) (by decide)
    (fun _ => by show rcNone.fallbackDate ≤ 10; decide)
    (fun v d h => Option.noConfusion h) (Value.str "A")
    ⟨⟨"erp_customers", "I", 5, 1, cxRowA⟩, by decide, by decide⟩

theorem pyChoice_mem {α : Type} (l : List α) (d : α) (i : Nat)
    (h : l ≠ []) : pyChoice l d i ∈ l := by
  unfold pyChoice
  have hlen : i % l.length < l.length :=
    Nat.mod_lt _ (List.length_pos.mpr h)
  rw [List.getD_eq_getElem l d hlen]
  exact List.getElem_mem hlen

theorem getCol_buildPaymentRow_order_ref (render : Nat → String)
    (ids : List String) (c : PayChoice) :
    getCol (buildPaymentRow render ids c) "order_ref" =
      some (if c.rGate > mkRat 65 1000 then
        pyChoice ((ids.map Value.str) ++ [Value.null]) Value.null c.refIdx
      else Value.null) := by
  unfold buildPaymentRow
  simp [getCol]

/-- Claim C6 counterexample: the 6.5% branch of `generate_payments_data`
does not inject dangling references — it forces the reference to null.
On a stream where that branch fires for the produced payment, the payment
carries a null `order_ref` and the log holds zero dangling references,
where the claim expects roughly 6.5% of rows to be dangling. -/
theorem C6_counterexample :
    (generate_payments_data erpRender 1 [cxOrder] payForcedNull).countP
        (danglingRef ["ORD1"]) = 0 ∧
      getCol (buildPaymentRow erpRender ["ORD1"] (payForcedNull 0))
        "order_ref" = some Value.null :=
  ⟨by decide, by decide⟩

/-- Claim C6 (amended): every `order_ref` of the payments table is either
empty (null) or one of the `order_id` values of the SaaS orders
collection — with no exceptions: the 6.5% branch forces a null reference
instead of injecting a dangling one, and the remaining draws pick from the
real order ids plus null. -/
theorem C6_order_refs_closed (render : Nat → String) (num_payments : Nat)
    (saas_orders : List SaasOrder) (cs : Nat → PayChoice) :
    (generate_payments_data render num_payments saas_orders cs).all
      (orderRefOk (saas_orders.map fun o => o.order_id)) = true := by
  rw [List.all_eq_true]
  intro r hr
  unfold generate_payments_data at hr
  rcases List.mem_map.mp hr with ⟨i, _, rfl⟩
  unfold orderRefOk
  rw [getCol_buildPaymentRow_order_ref]
  by_cases hg : (cs i).rGate > mkRat 65 1000
  · rw [if_pos hg]
    have hmem := pyChoice_mem
      (((saas_orders.map fun o => o.order_id).map Value.str) ++
        [Value.null]) Value.null (cs i).refIdx (by simp)
    rcases List.mem_append.mp hmem with hmem | hmem
    · rcases List.mem_map.mp hmem with ⟨s, hs, hsv⟩
      rw [← hsv]
      exact List.elem_eq_true_of_mem hs
    · rw [List.mem_singleton.mp hmem]
  · rw [if_neg hg]
